import Mathlib

/-!
Verification of the `rustaboom` renderer (src/main.rs, src/vec3d.rs).

The Rust code computes exclusively with `f64`; we embed it shallowly over `ℝ`,
with `Int.floor`-based fractional parts for `f64::floor`, `Real.sin` for
`f64::sin`, `Real.sqrt` for `f64::sqrt`, and `max 0 (min 255 ⌊v⌋)` for the
saturating `as u8` cast.
-/

noncomputable section

/-- The 3-component vector type of src/vec3d.rs (fields of `f64`, here `ℝ`). -/
@[ext]
structure Vec3d where
  x : ℝ
  y : ℝ
  z : ℝ

namespace Vec3d

/-- Source constructor `Vec3d::new` from src/vec3d.rs. -/
def new (x y z : ℝ) : Vec3d := ⟨x, y, z⟩

/-- The `Add` impl for `Vec3d` in src/vec3d.rs. -/
instance : Add Vec3d := ⟨fun a b => ⟨a.x + b.x, a.y + b.y, a.z + b.z⟩⟩

/-- The `Sub` impl for `Vec3d` in src/vec3d.rs. -/
instance : Sub Vec3d := ⟨fun a b => ⟨a.x - b.x, a.y - b.y, a.z - b.z⟩⟩

/-- The `Neg` impl for `Vec3d` in src/vec3d.rs. -/
instance : Neg Vec3d := ⟨fun a => ⟨-a.x, -a.y, -a.z⟩⟩

/-- The `Mul<f64>` impl for `Vec3d` in src/vec3d.rs: uniform scalar scaling. -/
instance : HMul Vec3d ℝ Vec3d := ⟨fun a s => ⟨a.x * s, a.y * s, a.z * s⟩⟩

/-- Source function `Vec3d::dot` from src/vec3d.rs (the same formula as the `Mul for Vec3d`
impl, which returns the scalar dot product). -/
def dot (a b : Vec3d) : ℝ := a.x * b.x + a.y * b.y + a.z * b.z

/-- Source function `eucl` from src/vec3d.rs. -/
def eucl (x y z : ℝ) : ℝ := Real.sqrt (x * x + y * y + z * z)

/-- Source function `Vec3d::length` from src/vec3d.rs. -/
def length (v : Vec3d) : ℝ := eucl v.x v.y v.z

/-- Source function `Vec3d::normalized` from src/vec3d.rs. -/
def normalized (v : Vec3d) : Vec3d :=
  let scale := 1 / v.length
  ⟨v.x * scale, v.y * scale, v.z * scale⟩

/-- The free function `vec3d::lerp` from src/vec3d.rs: the interpolation
parameter is clamped by `d.max(0.).min(1.)` before use. -/
def lerp (a b : Vec3d) (d : ℝ) : Vec3d := a + (b - a) * (min (max d 0) 1)

@[simp] lemma add_def (a b : Vec3d) : a + b = ⟨a.x + b.x, a.y + b.y, a.z + b.z⟩ := rfl

@[simp] lemma sub_def (a b : Vec3d) : a - b = ⟨a.x - b.x, a.y - b.y, a.z - b.z⟩ := rfl

@[simp] lemma smul_def (a : Vec3d) (s : ℝ) : a * s = Vec3d.mk (a.x * s) (a.y * s) (a.z * s) := rfl

end Vec3d

/-- Source constant `SPHERE_RADIUS` from src/main.rs. -/
def SPHERE_RADIUS : ℝ := 1.5

/-- Source constant `NOISE_AMPLITUDE` from src/main.rs. -/
def NOISE_AMPLITUDE : ℝ := 1

/-- Source function `palette_fire` from src/main.rs. -/
def palette_fire (d : ℝ) : Vec3d :=
  let yellow : Vec3d := ⟨1.7, 1.3, 1.0⟩
  let orange : Vec3d := ⟨1.0, 0.6, 0.0⟩
  let red : Vec3d := ⟨1.0, 0.0, 0.0⟩
  let darkgray : Vec3d := ⟨0.2, 0.2, 0.2⟩
  let gray : Vec3d := ⟨0.4, 0.4, 0.4⟩
  let x := max 0 (min 1 d)
  if x < 0.25 then Vec3d.lerp gray darkgray (x * 4)
  else if x < 0.5 then Vec3d.lerp darkgray red (x * 4 - 1)
  else if x < 0.75 then Vec3d.lerp red orange (x * 4 - 2)
  else Vec3d.lerp orange yellow (x * 4 - 4)

/-- The scalar `lerp` from src/main.rs: the interpolation parameter is
clamped by `0f64.max(1f64.min(d))` before use. -/
def lerp (v0 v1 d : ℝ) : ℝ := v0 + (v1 - v0) * (max 0 (min 1 d))

/-- Source function `hash` from src/main.rs: fractional part of `sin(n) * 43758.5453`. -/
def hash (n : ℝ) : ℝ :=
  let x := Real.sin n * 43758.5453
  x - ⌊x⌋

/-- The interpolation-weight vector computed inside `noise` in src/main.rs:
with `f` the fractional part of the input, the source line
`f = f * (f.dot(Vec3d::new(3., 3., 3.) - f * 2.))` scales `f` uniformly by
the SCALAR `f.dot(3 - 2 f)` (the `Mul for Vec3d` impl is a dot product). -/
def noiseWeights (x : Vec3d) : Vec3d :=
  let p : Vec3d := ⟨(⌊x.x⌋ : ℝ), (⌊x.y⌋ : ℝ), (⌊x.z⌋ : ℝ)⟩
  let f : Vec3d := ⟨x.x - p.x, x.y - p.y, x.z - p.z⟩
  f * (f.dot ((⟨3, 3, 3⟩ : Vec3d) - f * (2 : ℝ)))

/-- Source function `noise` from src/main.rs: trilinear interpolation of 8 hashed lattice
corners with the weights of `noiseWeights`. -/
def noise (x : Vec3d) : ℝ :=
  let p : Vec3d := ⟨(⌊x.x⌋ : ℝ), (⌊x.y⌋ : ℝ), (⌊x.z⌋ : ℝ)⟩
  let f := noiseWeights x
  let n := p.dot ⟨1, 57, 113⟩
  lerp
    (lerp (lerp (hash (n + 0)) (hash (n + 1)) f.x)
          (lerp (hash (n + 57)) (hash (n + 58)) f.x) f.y)
    (lerp (lerp (hash (n + 113)) (hash (n + 114)) f.x)
          (lerp (hash (n + 170)) (hash (n + 171)) f.x) f.y)
    f.z

/-- Source function `rotate` from src/main.rs. -/
def rotate (v : Vec3d) : Vec3d :=
  ⟨(⟨0, 0.8, 0.6⟩ : Vec3d).dot v,
   (⟨-0.80, 0.36, -0.48⟩ : Vec3d).dot v,
   (⟨-0.60, -0.48, 0.64⟩ : Vec3d).dot v⟩

/-- Source function `fractal_brownian_motion` from src/main.rs. -/
def fractal_brownian_motion (x : Vec3d) : ℝ :=
  let p0 := rotate x
  let f0 : ℝ := 0
  let f1 := f0 + 0.5000 * noise p0
  let p1 := p0 * (2.32 : ℝ)
  let f2 := f1 + 0.2500 * noise p1
  let p2 := p1 * (3.03 : ℝ)
  let f3 := f2 + 0.1250 * noise p2
  let p3 := p2 * (2.61 : ℝ)
  let f4 := f3 + 0.0625 * noise p3
  f4 / 0.9375

/-- Source function `signed_distance` from src/main.rs. -/
def signed_distance (p : Vec3d) : ℝ :=
  let displacement := -fractal_brownian_motion (p * (3.4 : ℝ)) * NOISE_AMPLITUDE
  p.length - (SPHERE_RADIUS + displacement)

/-- The `for _i in 0..128` marching loop of `sphere_trace` in src/main.rs,
as a fuel recursion: returns the hit flag and the final value of `*pos`. -/
def sphere_trace_loop (dir : Vec3d) : ℕ → Vec3d → Bool × Vec3d
  | 0, pos => (false, pos)
  | n + 1, pos =>
    let d := signed_distance pos
    if d < 0 then (true, pos)
    else sphere_trace_loop dir n (pos + dir * (max (d * 0.1) 0.01))

/-- Source function `sphere_trace` from src/main.rs. The `&mut Vec3d` out-parameter is made
explicit: `pos0` is the value the caller's variable holds at entry, and the
second component of the result is its value at return. -/
def sphere_trace (orig dir pos0 : Vec3d) : Bool × Vec3d :=
  if orig.dot orig - (orig.dot dir) ^ 2 > SPHERE_RADIUS ^ 2 then (false, pos0)
  else sphere_trace_loop dir 128 orig

/-- Variant of `sphere_trace` with the bounding-sphere entry guard removed: the march
always runs from `orig`. -/
def sphere_trace_noguard (orig dir : Vec3d) : Bool × Vec3d :=
  sphere_trace_loop dir 128 orig

/-- The marching loop instrumented with a counter of `signed_distance`
evaluations. -/
def sphere_trace_loop_counted (dir : Vec3d) : ℕ → Vec3d → ℕ → (Bool × Vec3d) × ℕ
  | 0, pos, k => ((false, pos), k)
  | n + 1, pos, k =>
    let d := signed_distance pos
    if d < 0 then ((true, pos), k + 1)
    else sphere_trace_loop_counted dir n (pos + dir * (max (d * 0.1) 0.01)) (k + 1)

/-- Variant of `sphere_trace` instrumented with a counter of `signed_distance`
evaluations (the spec suggests testing the guard via such a counter). -/
def sphere_trace_counted (orig dir pos0 : Vec3d) : (Bool × Vec3d) × ℕ :=
  if orig.dot orig - (orig.dot dir) ^ 2 > SPHERE_RADIUS ^ 2 then ((false, pos0), 0)
  else sphere_trace_loop_counted dir 128 orig 0

/-- Source function `distance_field_normal` from src/main.rs. -/
def distance_field_normal (pos : Vec3d) : Vec3d :=
  let eps : ℝ := 0.1
  let d := signed_distance pos
  let nx := signed_distance (pos + ⟨eps, 0, 0⟩) - d
  let ny := signed_distance (pos + ⟨0, eps, 0⟩) - d
  let nz := signed_distance (pos + ⟨0, 0, eps⟩) - d
  Vec3d.normalized ⟨nx, ny, nz⟩

/-- The shading applied to a hit position in `main` of src/main.rs. -/
def shade (hit : Vec3d) : Vec3d :=
  let noise_level := (SPHERE_RADIUS - hit.length) / NOISE_AMPLITUDE
  let light_dir := Vec3d.normalized ((⟨10, 10, 10⟩ : Vec3d) - hit)
  let light_intensity := max 0.4 (light_dir.dot (distance_field_normal hit))
  palette_fire ((-0.25 + noise_level) * 2) * light_intensity

/-- The per-pixel branch of `main` in src/main.rs: trace the ray; on a hit
shade the hit point, otherwise produce the fixed background color. -/
def render_pixel (orig dir pos0 : Vec3d) : Vec3d :=
  let r := sphere_trace orig dir pos0
  if r.1 then shade r.2 else ⟨0.2, 0.7, 0.8⟩

/-- Variant of `render_pixel` built on the guard-free `sphere_trace_noguard`. -/
def render_pixel_noguard (orig dir : Vec3d) : Vec3d :=
  let r := sphere_trace_noguard orig dir
  if r.1 then shade r.2 else ⟨0.2, 0.7, 0.8⟩

/-- The byte quantization `(255. * frame[j]) as u8` of src/main.rs: the Rust
`as u8` cast of an `f64` saturates to `[0, 255]` and truncates. -/
def quantize (c : ℝ) : ℤ := max 0 (min 255 ⌊255 * c⌋)

/-! ### Helper lemmas -/

lemma clamp_comm (d : ℝ) : max 0 (min 1 d) = min (max d 0) 1 := by
  rcases le_total d 0 with h | h <;> rcases le_total d 1 with h1 | h1 <;>
    simp [max_def, min_def] <;> split_ifs <;> linarith

lemma clamp_mem (d : ℝ) : 0 ≤ max 0 (min 1 d) ∧ max 0 (min 1 d) ≤ 1 :=
  ⟨le_max_left _ _, max_le (by norm_num) (min_le_left _ _)⟩

lemma clamp_idem {c : ℝ} (h0 : 0 ≤ c) (h1 : c ≤ 1) : max 0 (min 1 c) = c := by
  rw [min_eq_right h1, max_eq_right h0]

/-- An affine interpolation with a parameter already in the unit interval
stays between its endpoints. -/
lemma interp_between {a b c : ℝ} (h0 : 0 ≤ c) (h1 : c ≤ 1) :
    min a b ≤ a + (b - a) * c ∧ a + (b - a) * c ≤ max a b := by
  rcases le_total a b with hab | hab
  · rw [min_eq_left hab, max_eq_right hab]
    constructor
    · nlinarith [mul_nonneg (sub_nonneg.mpr hab) h0]
    · nlinarith [mul_nonneg (sub_nonneg.mpr hab) (by linarith : (0:ℝ) ≤ 1 - c)]
  · rw [min_eq_right hab, max_eq_left hab]
    constructor
    · nlinarith [mul_nonneg (sub_nonneg.mpr hab) (by linarith : (0:ℝ) ≤ 1 - c)]
    · nlinarith [mul_nonneg (sub_nonneg.mpr hab) h0]

/-- An affine interpolation with a parameter in the unit interval between two
values of `[0, 1)` stays in `[0, 1)`. -/
lemma interp_mem01 {a b c : ℝ} (hc0 : 0 ≤ c) (hc1 : c ≤ 1)
    (ha : 0 ≤ a ∧ a < 1) (hb : 0 ≤ b ∧ b < 1) :
    0 ≤ a + (b - a) * c ∧ a + (b - a) * c < 1 := by
  obtain ⟨ha0, ha1⟩ := ha
  obtain ⟨hb0, hb1⟩ := hb
  constructor
  · nlinarith [mul_nonneg ha0 (by linarith : (0:ℝ) ≤ 1 - c), mul_nonneg hb0 hc0]
  · rcases eq_or_lt_of_le hc1 with h | h
    · subst h
      nlinarith
    · nlinarith [mul_pos (by linarith : (0:ℝ) < 1 - a) (by linarith : (0:ℝ) < 1 - c),
        mul_nonneg (by linarith : (0:ℝ) ≤ 1 - b) hc0]

lemma lerp_mem01 {a b : ℝ} (d : ℝ) (ha : 0 ≤ a ∧ a < 1) (hb : 0 ≤ b ∧ b < 1) :
    0 ≤ lerp a b d ∧ lerp a b d < 1 := by
  obtain ⟨h0, h1⟩ := clamp_mem d
  exact interp_mem01 h0 h1 ha hb

lemma hash_mem (n : ℝ) : 0 ≤ hash n ∧ hash n < 1 := by
  have h : hash n = Int.fract (Real.sin n * 43758.5453) := rfl
  rw [h]
  exact ⟨Int.fract_nonneg _, Int.fract_lt_one _⟩

lemma noise_mem (x : Vec3d) : 0 ≤ noise x ∧ noise x < 1 :=
  lerp_mem01 _
    (lerp_mem01 _
      (lerp_mem01 _ (hash_mem _) (hash_mem _))
      (lerp_mem01 _ (hash_mem _) (hash_mem _)))
    (lerp_mem01 _
      (lerp_mem01 _ (hash_mem _) (hash_mem _))
      (lerp_mem01 _ (hash_mem _) (hash_mem _)))

lemma fbm_eq (x : Vec3d) : fractal_brownian_motion x =
    (0 + 0.5000 * noise (rotate x)
       + 0.2500 * noise (rotate x * (2.32 : ℝ))
       + 0.1250 * noise (rotate x * (2.32 : ℝ) * (3.03 : ℝ))
       + 0.0625 * noise (rotate x * (2.32 : ℝ) * (3.03 : ℝ) * (2.61 : ℝ))) / 0.9375 := rfl

lemma fbm_mem (x : Vec3d) : 0 ≤ fractal_brownian_motion x ∧ fractal_brownian_motion x < 1 := by
  rw [fbm_eq]
  obtain ⟨h1a, h1b⟩ := noise_mem (rotate x)
  obtain ⟨h2a, h2b⟩ := noise_mem (rotate x * (2.32 : ℝ))
  obtain ⟨h3a, h3b⟩ := noise_mem (rotate x * (2.32 : ℝ) * (3.03 : ℝ))
  obtain ⟨h4a, h4b⟩ := noise_mem (rotate x * (2.32 : ℝ) * (3.03 : ℝ) * (2.61 : ℝ))
  constructor
  · exact div_nonneg (by linarith) (by norm_num)
  · rw [div_lt_one (by norm_num : (0:ℝ) < 0.9375)]
    linarith

lemma length_eq_sqrt_dot (p : Vec3d) : p.length = Real.sqrt (p.dot p) := rfl

/-- Outside the bounding sphere the displaced signed distance is positive,
because the displacement `-fbm * NOISE_AMPLITUDE` is never positive. -/
lemma sdf_pos {p : Vec3d} (h : SPHERE_RADIUS ^ 2 < p.dot p) : 0 < signed_distance p := by
  have hf := (fbm_mem (p * (3.4 : ℝ))).1
  have hlen : SPHERE_RADIUS < p.length := by
    rw [length_eq_sqrt_dot]
    exact Real.lt_sqrt_of_sq_lt h
  show 0 < p.length - (SPHERE_RADIUS + -fractal_brownian_motion (p * (3.4 : ℝ)) * NOISE_AMPLITUDE)
  rw [NOISE_AMPLITUDE]
  linarith

lemma dot_expand (a b : Vec3d) (t : ℝ) :
    (a + b * t).dot (a + b * t) = a.dot a + 2 * t * a.dot b + t ^ 2 * b.dot b := by
  simp only [Vec3d.dot, Vec3d.add_def, Vec3d.smul_def]
  ring

/-- Any point of a ray rejected by the bounding-sphere guard stays strictly
outside the bounding sphere. -/
lemma ray_outside {orig dir : Vec3d} (hdir : dir.dot dir = 1)
    (hg : orig.dot orig - orig.dot dir ^ 2 > SPHERE_RADIUS ^ 2) (t : ℝ) :
    SPHERE_RADIUS ^ 2 < (orig + dir * t).dot (orig + dir * t) := by
  rw [dot_expand, hdir]
  nlinarith [sq_nonneg (t + orig.dot dir)]

lemma ray_shift (orig dir : Vec3d) (t s : ℝ) :
    orig + dir * t + dir * s = orig + dir * (t + s) := by
  ext <;> simp <;> ring

/-- The marching loop, started anywhere on a guard-rejected ray, never hits. -/
lemma loop_far_miss {orig dir : Vec3d} (hdir : dir.dot dir = 1)
    (hg : orig.dot orig - orig.dot dir ^ 2 > SPHERE_RADIUS ^ 2) :
    ∀ (n : ℕ) (t : ℝ), (sphere_trace_loop dir n (orig + dir * t)).1 = false := by
  intro n
  induction n with
  | zero => intro t; rfl
  | succ n ih =>
    intro t
    have hd : 0 < signed_distance (orig + dir * t) := sdf_pos (ray_outside hdir hg t)
    rw [sphere_trace_loop]
    rw [if_neg (by linarith : ¬ signed_distance (orig + dir * t) < 0)]
    rw [ray_shift]
    exact ih _

lemma pos_zero_shift (orig dir : Vec3d) : orig + dir * (0 : ℝ) = orig := by
  ext <;> simp

/-- The instrumented loop computes the same hit flag and position as the
plain marching loop. -/
lemma loop_counted_fst (dir : Vec3d) :
    ∀ (n : ℕ) (pos : Vec3d) (k : ℕ),
      (sphere_trace_loop_counted dir n pos k).1 = sphere_trace_loop dir n pos := by
  intro n
  induction n with
  | zero => intro pos k; rfl
  | succ n ih =>
    intro pos k
    rw [sphere_trace_loop_counted, sphere_trace_loop]
    by_cases h : signed_distance pos < 0
    · rw [if_pos h, if_pos h]
    · rw [if_neg h, if_neg h]
      exact ih _ _

/-! ### Spec-side definitions used for refinement comparisons -/

/-- Modelled from the spec: the interpolation-weight computation as claim C1
states it, the true component-wise smoothstep `f * f * (3 - 2 f)` of the
fractional part of the input. -/
def specSmoothstepWeights (x : Vec3d) : Vec3d :=
  let fx := x.x - (⌊x.x⌋ : ℝ)
  let fy := x.y - (⌊x.y⌋ : ℝ)
  let fz := x.z - (⌊x.z⌋ : ℝ)
  ⟨fx * fx * (3 - 2 * fx), fy * fy * (3 - 2 * fy), fz * fz * (3 - 2 * fz)⟩

/-- The amended description of `noise`: the fractional part `f` is scaled
uniformly by the single scalar `f.x * (3 - 2 f.x) + f.y * (3 - 2 f.y) +
f.z * (3 - 2 f.z)` (the dot product `f.dot(3 - 2 f)`), so every weight
couples all three fractional coordinates; the scaled components are then
the trilinear weights over the 8 hashed corners keyed by
`n = cell.dot((1, 57, 113))`. -/
def specNoiseDotScaled (x : Vec3d) : ℝ :=
  let fx := x.x - (⌊x.x⌋ : ℝ)
  let fy := x.y - (⌊x.y⌋ : ℝ)
  let fz := x.z - (⌊x.z⌋ : ℝ)
  let s := fx * (3 - 2 * fx) + fy * (3 - 2 * fy) + fz * (3 - 2 * fz)
  let wx := fx * s
  let wy := fy * s
  let wz := fz * s
  let n := (⌊x.x⌋ : ℝ) * 1 + (⌊x.y⌋ : ℝ) * 57 + (⌊x.z⌋ : ℝ) * 113
  lerp
    (lerp (lerp (hash (n + 0)) (hash (n + 1)) wx)
          (lerp (hash (n + 57)) (hash (n + 58)) wx) wy)
    (lerp (lerp (hash (n + 113)) (hash (n + 114)) wx)
          (lerp (hash (n + 170)) (hash (n + 171)) wx) wy)
    wz

/-! ### Claim theorems -/

/-- C1, counterexample: at the point `(0.5, 0.5, 0)` the weight vector that
`noise` actually computes is `(1, 1, 0)`, not the component-wise smoothstep
`(0.5, 0.5, 0)` claimed, so the weight along an axis does not depend only on
the fractional coordinate of that axis. -/
theorem noiseWeights_ne_componentwise_smoothstep :
    noiseWeights ⟨0.5, 0.5, 0⟩ ≠ specSmoothstepWeights ⟨0.5, 0.5, 0⟩ := by
  rw [noiseWeights, specSmoothstepWeights]
  norm_num [Vec3d.dot, Vec3d.ext_iff]

/-- C1, amended: for every point `p`, `noise(p)` computes its interpolation
weights by scaling the fractional part `f` uniformly by the single scalar
`f.dot(3 - 2 f)` (so each weight couples all three fractional coordinates),
and uses the components of that scaled vector as the trilinear interpolation
weights over the 8 hashed lattice corners. -/
theorem noise_eq_specNoiseDotScaled (x : Vec3d) : noise x = specNoiseDotScaled x := by
  rw [noise, specNoiseDotScaled, noiseWeights]
  simp only [Vec3d.dot, Vec3d.sub_def, Vec3d.smul_def]
  ring_nf

/-- C2, code evaluation at the failing input: the fourth palette segment uses
the interpolation parameter `x * 4 - 4` (instead of the local fractional
position `x * 4 - 3`), which the vector lerp clamps to `0` on all of
`[0.75, 1]`; hence `palette_fire` returns the orange stop `(1.0, 0.6, 0.0)`
at `t = 1` (and throughout the segment, shown at `t = 0.8`) instead of the
yellow stop `(1.7, 1.3, 1.0)` the claim requires at `t ≥ 1`. -/
theorem palette_fire_top_segment_constant_orange :
    palette_fire 1 = ⟨1.0, 0.6, 0.0⟩ ∧ palette_fire 1 ≠ ⟨1.7, 1.3, 1.0⟩ ∧
      palette_fire 0.8 = ⟨1.0, 0.6, 0.0⟩ ∧ palette_fire 2 = ⟨1.0, 0.6, 0.0⟩ := by
  refine ⟨?_, ?_, ?_, ?_⟩ <;>
    · rw [palette_fire]
      norm_num [Vec3d.lerp, Vec3d.ext_iff]

/-- C6: for every input point `p`, `fractal_brownian_motion(p)` lies in
`[0, 1)`: each octave noise value is in `[0, 1)` because `hash` returns
values in `[0, 1)` and `lerp` interpolates between them with a clamped
weight, and the weighted sum (weights 0.5, 0.25, 0.125, 0.0625) divided by
0.9375 stays in `[0, 1)`. -/
theorem fractal_brownian_motion_bounded (p : Vec3d) :
    0 ≤ fractal_brownian_motion p ∧ fractal_brownian_motion p < 1 :=
  fbm_mem p

/-- C10: when the bounding-sphere entry guard rejects a ray, `sphere_trace`
returns `false` and leaves the caller's `pos` variable exactly as it was
before the call. -/
theorem sphere_trace_guard_preserves_pos (orig dir pos0 : Vec3d)
    (hg : orig.dot orig - orig.dot dir ^ 2 > SPHERE_RADIUS ^ 2) :
    sphere_trace orig dir pos0 = (false, pos0) := by
  rw [sphere_trace, if_pos hg]

/-- Witness for C10 at the concrete ray from `(0, 0, 3)` along `(1, 0, 0)`
with the caller's variable holding `(7, 8, 9)`. -/
theorem sphere_trace_guard_preserves_pos_witness :
    Vec3d.dot ⟨0, 0, 3⟩ ⟨0, 0, 3⟩ - Vec3d.dot ⟨0, 0, 3⟩ ⟨1, 0, 0⟩ ^ 2 > SPHERE_RADIUS ^ 2 ∧
      sphere_trace ⟨0, 0, 3⟩ ⟨1, 0, 0⟩ ⟨7, 8, 9⟩ = (false, ⟨7, 8, 9⟩) :=
  ⟨by norm_num [Vec3d.dot, SPHERE_RADIUS],
   sphere_trace_guard_preserves_pos _ _ _ (by norm_num [Vec3d.dot, SPHERE_RADIUS])⟩

/-- C4: a ray whose closest line-of-approach distance to the origin exceeds
the sphere radius is rejected by the guard: `sphere_trace` reports a miss
immediately, and the instrumented trace performs zero marching iterations
and zero `signed_distance` evaluations. -/
theorem sphere_trace_guard_skips_sdf (orig dir pos0 : Vec3d)
    (hg : orig.dot orig - orig.dot dir ^ 2 > SPHERE_RADIUS ^ 2) :
    sphere_trace_counted orig dir pos0 = ((false, pos0), 0) ∧
      (sphere_trace orig dir pos0).1 = false := by
  constructor
  · rw [sphere_trace_counted, if_pos hg]
  · rw [sphere_trace, if_pos hg]

/-- Witness for C4 at the concrete ray from `(0, 0, 3)` along `(1, 0, 0)`. -/
theorem sphere_trace_guard_skips_sdf_witness :
    Vec3d.dot ⟨0, 0, 3⟩ ⟨0, 0, 3⟩ - Vec3d.dot ⟨0, 0, 3⟩ ⟨1, 0, 0⟩ ^ 2 > SPHERE_RADIUS ^ 2 ∧
      (sphere_trace_counted ⟨0, 0, 3⟩ ⟨1, 0, 0⟩ ⟨0, 0, 0⟩ = ((false, ⟨0, 0, 0⟩), 0) ∧
        (sphere_trace ⟨0, 0, 3⟩ ⟨1, 0, 0⟩ ⟨0, 0, 0⟩).1 = false) :=
  ⟨by norm_num [Vec3d.dot, SPHERE_RADIUS],
   sphere_trace_guard_skips_sdf _ _ _ (by norm_num [Vec3d.dot, SPHERE_RADIUS])⟩

/-- C5: for a ray passing the entry guard, `sphere_trace` is the 128-step
march started at `pos = orig`; a step with `signed_distance pos < 0`
declares a hit and returns the current `pos` unrefined, any other step
advances `pos` by `dir * max (d * 0.1) 0.01`, and exhausting the fuel
declares a miss. -/
theorem sphere_trace_march_contract (orig dir pos0 : Vec3d)
    (hg : ¬ (orig.dot orig - orig.dot dir ^ 2 > SPHERE_RADIUS ^ 2)) :
    sphere_trace orig dir pos0 = sphere_trace_loop dir 128 orig ∧
      (∀ pos, sphere_trace_loop dir 0 pos = (false, pos)) ∧
      (∀ (n : ℕ) (pos : Vec3d), sphere_trace_loop dir (n + 1) pos =
        if signed_distance pos < 0 then (true, pos)
        else sphere_trace_loop dir n (pos + dir * (max (signed_distance pos * 0.1) 0.01))) := by
  refine ⟨by rw [sphere_trace, if_neg hg], fun pos => rfl, fun n pos => rfl⟩

/-- Witness for C5 at the concrete ray from `(0, 0, 3)` along `(0, 0, -1)`,
which passes the guard. -/
theorem sphere_trace_march_contract_witness :
    ¬ (Vec3d.dot ⟨0, 0, 3⟩ ⟨0, 0, 3⟩ - Vec3d.dot ⟨0, 0, 3⟩ ⟨0, 0, -1⟩ ^ 2 > SPHERE_RADIUS ^ 2) ∧
      (sphere_trace ⟨0, 0, 3⟩ ⟨0, 0, -1⟩ ⟨0, 0, 0⟩ = sphere_trace_loop ⟨0, 0, -1⟩ 128 ⟨0, 0, 3⟩ ∧
        (∀ pos, sphere_trace_loop ⟨0, 0, -1⟩ 0 pos = (false, pos)) ∧
        (∀ (n : ℕ) (pos : Vec3d), sphere_trace_loop ⟨0, 0, -1⟩ (n + 1) pos =
          if signed_distance pos < 0 then (true, pos)
          else sphere_trace_loop ⟨0, 0, -1⟩ n
            (pos + (⟨0, 0, -1⟩ : Vec3d) * (max (signed_distance pos * 0.1) 0.01)))) :=
  ⟨by norm_num [Vec3d.dot, SPHERE_RADIUS],
   sphere_trace_march_contract _ _ _ (by norm_num [Vec3d.dot, SPHERE_RADIUS])⟩

/-- C3: for every ray origin and unit direction, the bounding-sphere entry
guard is a pure optimization: the guard-free trace produces the same hit
flag, and the rendered pixel color is unchanged, because a guard-rejected
ray marched anyway stays outside the bounding sphere where the signed
distance is positive, so it never hits within 128 steps. -/
theorem sphere_trace_guard_transparent (orig dir pos0 : Vec3d) (hdir : dir.dot dir = 1) :
    render_pixel orig dir pos0 = render_pixel_noguard orig dir ∧
      (sphere_trace orig dir pos0).1 = (sphere_trace_noguard orig dir).1 := by
  by_cases hg : orig.dot orig - orig.dot dir ^ 2 > SPHERE_RADIUS ^ 2
  · have hmiss : (sphere_trace_noguard orig dir).1 = false := by
      rw [sphere_trace_noguard, ← pos_zero_shift orig dir]
      exact loop_far_miss hdir hg 128 0
    have hguard : sphere_trace orig dir pos0 = (false, pos0) := by
      rw [sphere_trace, if_pos hg]
    constructor
    · simp [render_pixel, render_pixel_noguard, hguard, hmiss]
    · simp [hguard, hmiss]
  · have heq : sphere_trace orig dir pos0 = sphere_trace_noguard orig dir := by
      rw [sphere_trace, if_neg hg, sphere_trace_noguard]
    rw [render_pixel, render_pixel_noguard, heq]
    exact ⟨rfl, rfl⟩

/-- Witness for C3 at the concrete guard-rejected ray from `(0, 0, 3)` along
the unit direction `(1, 0, 0)`. -/
theorem sphere_trace_guard_transparent_witness :
    Vec3d.dot ⟨1, 0, 0⟩ ⟨1, 0, 0⟩ = 1 ∧
      (render_pixel ⟨0, 0, 3⟩ ⟨1, 0, 0⟩ ⟨0, 0, 0⟩ = render_pixel_noguard ⟨0, 0, 3⟩ ⟨1, 0, 0⟩ ∧
        (sphere_trace ⟨0, 0, 3⟩ ⟨1, 0, 0⟩ ⟨0, 0, 0⟩).1 =
          (sphere_trace_noguard ⟨0, 0, 3⟩ ⟨1, 0, 0⟩).1) :=
  ⟨by norm_num [Vec3d.dot],
   sphere_trace_guard_transparent _ _ _ (by norm_num [Vec3d.dot])⟩

/-- C7: every ray that misses produces exactly the fixed background color
`(0.2, 0.7, 0.8)`, which quantizes to the bytes `(51, 178, 204)`; in
particular the ray from origin `(0, 0, 3)` with direction `(1, 0, 0)`
reports a miss. -/
theorem miss_gives_background :
    (∀ orig dir pos0 : Vec3d, (sphere_trace orig dir pos0).1 = false →
        render_pixel orig dir pos0 = ⟨0.2, 0.7, 0.8⟩) ∧
      quantize 0.2 = 51 ∧ quantize 0.7 = 178 ∧ quantize 0.8 = 204 ∧
      (sphere_trace ⟨0, 0, 3⟩ ⟨1, 0, 0⟩ ⟨0, 0, 0⟩).1 = false := by
  refine ⟨fun orig dir pos0 h => ?_, ?_, ?_, ?_, ?_⟩
  · simp [render_pixel, h]
  · rw [quantize]; norm_num
  · rw [quantize]; norm_num
  · rw [quantize]; norm_num
  · rw [sphere_trace, if_pos (by norm_num [Vec3d.dot, SPHERE_RADIUS])]

/-- Witness for C7: the concrete miss ray receives the background color. -/
theorem miss_gives_background_witness :
    (sphere_trace ⟨0, 0, 3⟩ ⟨1, 0, 0⟩ ⟨0, 0, 0⟩).1 = false ∧
      render_pixel ⟨0, 0, 3⟩ ⟨1, 0, 0⟩ ⟨0, 0, 0⟩ = ⟨0.2, 0.7, 0.8⟩ :=
  ⟨by rw [sphere_trace, if_pos (by norm_num [Vec3d.dot, SPHERE_RADIUS])],
   miss_gives_background.1 _ _ _
     (by rw [sphere_trace, if_pos (by norm_num [Vec3d.dot, SPHERE_RADIUS])])⟩

/-- C8: the byte encoding equals truncation of `255` times the component
clamped to `[0, 1]`; components above `1` (such as the hot yellow channel
`1.7`) quantize to byte `255` and components below `0` quantize to byte `0`,
with no wrapping. -/
theorem quantize_eq_floor_clamp :
    (∀ c : ℝ, quantize c = ⌊255 * min 1 (max 0 c)⌋) ∧
      quantize 1.7 = 255 ∧ quantize (-0.5) = 0 := by
  refine ⟨fun c => ?_, by rw [quantize]; norm_num, by rw [quantize]; norm_num⟩
  rw [quantize]
  rcases le_total c 0 with h | h
  · have hc : (255 : ℝ) * c ≤ 0 := mul_nonpos_of_nonneg_of_nonpos (by norm_num) h
    have hfl : ⌊(255 : ℝ) * c⌋ ≤ 0 := by
      calc ⌊(255 : ℝ) * c⌋ ≤ ⌊(0 : ℝ)⌋ := Int.floor_le_floor hc
        _ = 0 := by norm_num
    rw [max_eq_left h, min_eq_right (by norm_num : (0:ℝ) ≤ 1),
      min_eq_right (le_trans hfl (by norm_num)), max_eq_left hfl]
    norm_num
  · rcases le_total c 1 with h1 | h1
    · have h0 : (0 : ℤ) ≤ ⌊(255 : ℝ) * c⌋ := Int.le_floor.mpr (by push_cast; nlinarith)
      have h255 : ⌊(255 : ℝ) * c⌋ ≤ 255 := by
        calc ⌊(255 : ℝ) * c⌋ ≤ ⌊(255 : ℝ)⌋ := Int.floor_le_floor (by nlinarith)
          _ = 255 := by norm_num
      rw [max_eq_right h, min_eq_right h1, min_eq_right h255, max_eq_right h0]
    · have h255 : (255 : ℤ) ≤ ⌊(255 : ℝ) * c⌋ := Int.le_floor.mpr (by push_cast; nlinarith)
      rw [max_eq_right h, min_eq_left h1, min_eq_left h255]
      norm_num

/-- C9: both the scalar `lerp` of src/main.rs and the vector `lerp` of
src/vec3d.rs clamp their interpolation parameter to `[0, 1]` before
interpolating, so the result always lies (component-wise for vectors)
between the two endpoints, even for weights outside `[0, 1]`. -/
theorem lerp_clamps_parameter :
    (∀ v0 v1 d : ℝ, lerp v0 v1 d = lerp v0 v1 (min (max d 0) 1) ∧
        min v0 v1 ≤ lerp v0 v1 d ∧ lerp v0 v1 d ≤ max v0 v1) ∧
      (∀ (a b : Vec3d) (d : ℝ), Vec3d.lerp a b d = Vec3d.lerp a b (min (max d 0) 1) ∧
        min a.x b.x ≤ (Vec3d.lerp a b d).x ∧ (Vec3d.lerp a b d).x ≤ max a.x b.x ∧
        min a.y b.y ≤ (Vec3d.lerp a b d).y ∧ (Vec3d.lerp a b d).y ≤ max a.y b.y ∧
        min a.z b.z ≤ (Vec3d.lerp a b d).z ∧ (Vec3d.lerp a b d).z ≤ max a.z b.z) := by
  have hcl : ∀ d : ℝ, 0 ≤ min (max d 0) 1 ∧ min (max d 0) 1 ≤ 1 := fun d =>
    ⟨le_min (le_max_right _ _) zero_le_one, min_le_right _ _⟩
  constructor
  · intro v0 v1 d
    obtain ⟨h0, h1⟩ := hcl d
    refine ⟨?_, ?_⟩
    · rw [lerp, lerp, clamp_comm, clamp_idem h0 h1]
    · rw [lerp, clamp_comm]
      exact interp_between h0 h1
  · intro a b d
    obtain ⟨h0, h1⟩ := hcl d
    refine ⟨?_, ?_, ?_, ?_, ?_, ?_, ?_⟩
    · rw [Vec3d.lerp, Vec3d.lerp, max_eq_left h0, min_eq_left h1]
    all_goals
      · rw [Vec3d.lerp]
        simp only [Vec3d.add_def, Vec3d.sub_def, Vec3d.smul_def]
        first
        | exact (interp_between h0 h1).1
        | exact (interp_between h0 h1).2

end
